import Mathlib

/-!
Verification of the core logic of the `vertica-mcp-server` repository
(`src/vertica_mcp_server/server.py`): connection-string parsing, the SQL
safety gate and row-limit injection of the query executor, result
serialization, CSV rendering, and the per-call connection open/close
discipline.

Python strings are modelled as `List Char`.  The Python string methods
the program uses (`upper`, `strip`, `split`, `partition`, `rpartition`,
`startswith`, the `in` substring test) and the relevant fragment of
`urllib.parse.urlparse` are modelled on the character level; the Unicode
case mapping is modelled by the ASCII case mapping, and Python's notion
of whitespace by `Char.isWhitespace`.
-/

namespace VMcp

/-- Python strings, modelled as lists of characters. -/
abbrev Str := List Char

/-! ## Models of the Python string primitives used by the program -/

/-- Python `s.upper()` (ASCII case mapping). -/
def pyUpper (s : Str) : Str := s.map Char.toUpper

/-- Python `s.lower()` (ASCII case mapping), used by `urlparse(...).hostname`. -/
def pyLower (s : Str) : Str := s.map Char.toLower

/-- Python `s.strip()`: remove leading and trailing whitespace. -/
def pyStrip (s : Str) : Str :=
  ((s.dropWhile Char.isWhitespace).reverse.dropWhile Char.isWhitespace).reverse

/-- Python substring test `sub in s`. -/
def pyContains (s sub : Str) : Bool := decide (sub <:+: s)

/-- Python `s.startswith(pre)`. -/
def pyStartswith (s pre : Str) : Bool := pre.isPrefixOf s

/-- Python `s.partition(sep)` for a one-character separator: split at the
first occurrence; `none` when the separator does not occur.  This also
models `s.split(sep, 1)` (which returns a single piece when the separator
is absent, distinguished here by the `Option`). -/
def pyPartition (sep : Char) : Str → Option (Str × Str)
  | [] => none
  | c :: rest =>
    if c = sep then some ([], rest)
    else (pyPartition sep rest).map (fun p => (c :: p.1, p.2))

/-- Python `s.rpartition(sep)` for a one-character separator: split at the
last occurrence. -/
def pyRPartition (sep : Char) (s : Str) : Option (Str × Str) :=
  (pyPartition sep s.reverse).map (fun p => (p.2.reverse, p.1.reverse))

/-- Helper for `pySplit`: accumulates the current piece in reverse. -/
def pySplitAux (sep : Char) : Str → Str → List Str
  | [], acc => [acc.reverse]
  | c :: rest, acc =>
    if c = sep then acc.reverse :: pySplitAux sep rest []
    else pySplitAux sep rest (c :: acc)

/-- Python `s.split(sep)` for a one-character separator (no maxsplit). -/
def pySplit (sep : Char) (s : Str) : List Str := pySplitAux sep s []

/-- ASCII decimal digit test. -/
def isAsciiDigit (c : Char) : Bool := ('0' ≤ c) && (c ≤ '9')

/-- Numeric value of the decimal digits of a string. -/
def digitsToNat (s : Str) : Nat := s.foldl (fun a c => 10 * a + (c.toNat - 48)) 0

/-- Decimal rendering of a natural number. -/
def natToStr (n : Nat) : Str := Nat.toDigits 10 n

/-- Python decimal rendering of an `int`. -/
def intToStr (n : Int) : Str :=
  if n < 0 then '-' :: natToStr n.natAbs else natToStr n.toNat

/-! ## Error model

All errors the modelled code raises are Python `ValueError`s (the spec's
`ConfigurationError` / `PolicyViolation` taxonomy), distinguished by their
message, plus errors coming from the database driver. -/

/-- An abstract failure of the `vertica_python` driver. -/
inductive DriverErr where
  | mk (msg : Str)
deriving DecidableEq

/-- Python exceptions raised by the modelled code. -/
inductive PyErr where
  | valueError (msg : Str)
  | driverError (e : DriverErr)
deriving DecidableEq

/-- Message of the safety-gate rejection (server.py line 381). -/
def policyViolationMsg : Str :=
  ("Only SELECT, DESCRIBE, and EXPLAIN statements are allowed").toList

/-- Message of the empty-connection-string rejection (line 77). -/
def connStringRequiredMsg : Str :=
  ("Database connection string is required").toList

/-- Message of the unrecognized-format rejection (line 111). -/
def invalidFormatMsg : Str :=
  ("Invalid connection string format").toList

/-- Message of Python's `int()` conversion ValueError (Python additionally
quotes the offending literal in its message). -/
def intErrMsg (s : Str) : Str :=
  ("invalid literal for int with base 10: ").toList ++ s

/-- Model of Python `int(s)` on its core decimal forms: optional
surrounding whitespace, an optional sign, then at least one ASCII digit
(underscore group separators are not modelled). -/
def pyInt (s : Str) : Except PyErr Int :=
  match pyStrip s with
  | '+' :: ds =>
    if !ds.isEmpty && ds.all isAsciiDigit then .ok (digitsToNat ds : Int)
    else .error (.valueError (intErrMsg s))
  | '-' :: ds =>
    if !ds.isEmpty && ds.all isAsciiDigit then .ok (-(digitsToNat ds : Int))
    else .error (.valueError (intErrMsg s))
  | t =>
    if !t.isEmpty && t.all isAsciiDigit then .ok (digitsToNat t : Int)
    else .error (.valueError (intErrMsg s))

/-! ## Configuration and environment (section 6 of the spec; lines 44-60) -/

/-- The environment-derived configuration read at process start. -/
structure Config where
  query_limit_size : Int
  table_white_list : List Str
  column_white_list : List Str
deriving DecidableEq

/-- The two environment variables consulted by the simple-form branch of
the connection-string parser (lines 107-108). -/
structure Env where
  vertica_user : Option Str
  vertica_password : Option Str
deriving DecidableEq

/-! ## The safety gate and limit injection of `QueryExecutor.execute_query`
(lines 355-437) -/

/-- Line 361: `sql_upper = sql.upper().strip()`. -/
def sqlNormalize (sql : Str) : Str := pyStrip (pyUpper sql)

/-- Lines 364-372: the dangerous-keyword list. -/
def dangerousKeywords : List Str :=
  [("DROP").toList, ("DELETE").toList, ("TRUNCATE").toList, ("ALTER").toList,
   ("CREATE").toList, ("INSERT").toList, ("UPDATE").toList]

/-- Lines 375-378: the allowed statement-leading keywords. -/
def allowedStarts : List Str :=
  [("SELECT").toList, ("WITH").toList, ("DESCRIBE").toList, ("DESC").toList,
   ("EXPLAIN").toList]

/-- Lines 374-382: the safety gate.  Raises the policy ValueError exactly
when the normalized SQL does not start with an allowed keyword and
contains a dangerous keyword as a substring. -/
def safetyGate (sql : Str) : Except PyErr Unit :=
  let sql_upper := sqlNormalize sql
  if !(allowedStarts.any (fun k => pyStartswith sql_upper k)) then
    if dangerousKeywords.any (fun k => pyContains sql_upper k) then
      .error (.valueError policyViolationMsg)
    else .ok ()
  else .ok ()

/-- The literal text appended by limit injection (line 395). -/
def limitClause (cfg : Config) : Str :=
  (" LIMIT ").toList ++ intToStr cfg.query_limit_size

/-- Lines 389-393: the limit-injection condition. -/
def shouldInjectLimit (sql : Str) : Bool :=
  let sql_upper := sqlNormalize sql
  pyContains sql_upper (("SELECT").toList)
    && !(pyContains sql_upper (("LIMIT").toList))
    && !(pyStartswith sql_upper (("EXPLAIN").toList))

/-- Lines 388-395: the SQL text actually handed to `cursor.execute`. -/
def executedSql (cfg : Config) (sql : Str) : Str :=
  if shouldInjectLimit sql then sql ++ limitClause cfg else sql

/-! ## The driver and the per-call connection discipline -/

/-- Observable connection/cursor events of one operation. -/
inductive DbEvent where
  | connect
  | exec (sql : Str)
  | close
deriving DecidableEq

/-- A timestamp as the driver may return it (Python `datetime`). -/
structure PyDatetime where
  year : Nat
  month : Nat
  day : Nat
  hour : Nat
  minute : Nat
  second : Nat
  microsecond : Nat
deriving DecidableEq

/-- A scalar value in a result row: null, string, number, boolean or
timestamp (the scalar universe of section 3 of the spec; floats are not
modelled). -/
inductive Value where
  | null
  | s (v : Str)
  | i (n : Int)
  | b (v : Bool)
  | dt (t : PyDatetime)
deriving DecidableEq

/-- What `cursor.description` / `cursor.fetchall()` report after a
successful `cursor.execute`. -/
structure CursorResult where
  description : Option (List Str)
  rows : List (List Value)
deriving DecidableEq

/-- A raw catalog row of the tables query (lines 139-154): positions 0-5. -/
structure TableRow where
  table_schema : Str
  table_name : Str
  table_type : Str
  is_temp_table : Value
  is_system_table : Value
  estimated_row_count : Value
deriving DecidableEq

/-- A raw catalog row of the columns query (lines 199-213): positions 0-9. -/
structure ColumnRow where
  column_name : Str
  data_type : Str
  data_type_id : Value
  data_type_length : Value
  numeric_precision : Value
  numeric_scale : Value
  is_nullable : Value
  column_default : Value
  column_set_using : Value
  ordinal_position : Int
deriving DecidableEq

/-- A raw catalog row of the views query (lines 261-268): positions 0-2. -/
structure ViewRow where
  table_schema : Str
  table_name : Str
  is_system_view : Value
deriving DecidableEq

/-- A raw catalog row of the projections query (lines 303-316):
positions 0-7. -/
structure ProjectionRow where
  projection_schema : Str
  projection_name : Str
  anchor_table_name : Str
  is_super_projection : Value
  is_up_to_date : Value
  has_statistics : Value
  created_epoch : Value
  verified_fault_tolerance : Value
deriving DecidableEq

/-- An abstract model of the `vertica_python` driver for one operation:
the outcome of `connect` and, per statement kind, the outcome of
`cursor.execute` + fetch.  Catalog-query outcomes are given per
Inspector operation (their fixed SQL text, WHERE filters and ORDER BY run
inside the external database and are not modelled). -/
structure Driver where
  connectResult : Except DriverErr Unit
  execResult : Str → Except DriverErr CursorResult
  tablesResult : Except DriverErr (List TableRow)
  columnsResult : Except DriverErr (List ColumnRow)
  viewsResult : Except DriverErr (List ViewRow)
  projectionsResult : Except DriverErr (List ProjectionRow)

/-- The per-operation acquire / try / finally-close pattern shared by every
Inspector and Executor operation (e.g. lines 134-189, 384-437): get a
connection, run the body, close the connection on every exit path; a body
failure propagates unmodified after the close.  When `connect` itself
fails, no connection was acquired and the failure propagates directly. -/
def runWithConn {α : Type} (connectResult : Except DriverErr Unit)
    (body : Except DriverErr α × List DbEvent) : Except PyErr α × List DbEvent :=
  match connectResult with
  | .error e => (.error (.driverError e), [])
  | .ok _ =>
    match body with
    | (.error e, evs) => (.error (.driverError e), .connect :: (evs ++ [.close]))
    | (.ok a, evs) => (.ok a, .connect :: (evs ++ [.close]))

/-! ## Result serialization (lines 404-428) -/

/-- Zero-padded decimal rendering, as used by `datetime.isoformat`. -/
def padNum (w n : Nat) : Str :=
  List.replicate (w - (natToStr n).length) '0' ++ natToStr n

/-- The ISO-8601 rendering of a `datetime` with a choice of date/time
separator: `isoformat()` uses `T`, `str(datetime)` uses a space. -/
def isoformatSep (sep : Char) (t : PyDatetime) : Str :=
  padNum 4 t.year ++ '-' :: padNum 2 t.month ++ '-' :: padNum 2 t.day ++
  sep :: padNum 2 t.hour ++ ':' :: padNum 2 t.minute ++ ':' :: padNum 2 t.second ++
  (if t.microsecond = 0 then [] else '.' :: padNum 6 t.microsecond)

/-- Python `datetime.isoformat()`. -/
def pyIsoformat (t : PyDatetime) : Str := isoformatSep 'T' t

/-- Python `str(value)` on the modelled scalar universe. -/
def pyStr : Value → Str
  | .null => ("None").toList
  | .s v => v
  | .i n => intToStr n
  | .b true => ("True").toList
  | .b false => ("False").toList
  | .dt t => isoformatSep ' ' t

/-- Lines 415-419: a `datetime` value is replaced by `value.isoformat()`;
every other value is appended unchanged. -/
def serializeValue : Value → Value
  | .dt t => .s (pyIsoformat t)
  | v => v

/-- Lines 412-420: the row-serialization loops, one output row per input
row, one output value per input value. -/
def serializeRows (rows : List (List Value)) : List (List Value) :=
  rows.map (fun row => row.map serializeValue)

/-- The value returned by `execute_query` (lines 422-434): either a
column/row result or the no-result-set success message payload. -/
inductive ExecResult where
  | table (columns : List Str) (rows : List (List Value)) (row_count : Nat)
      (query : Str)
  | message (query : Str)
deriving DecidableEq

/-- `QueryExecutor.execute_query` (lines 355-437), returning the result or
raised error together with the connection-event trace.  Wall-clock timing
and the `params` pass-through are not modelled; `row_count` is
`len(rows)` of the fetched rows (line 425). -/
def execute_query (cfg : Config) (driver : Driver) (sql : Str) :
    Except PyErr ExecResult × List DbEvent :=
  match safetyGate sql with
  | .error e => (.error e, [])
  | .ok _ =>
    let sql2 := executedSql cfg sql
    runWithConn driver.connectResult
      (match driver.execResult sql2 with
       | .error e => (.error e, [.exec sql2])
       | .ok cur =>
         match cur.description with
         | some cols =>
           (.ok (.table cols (serializeRows cur.rows) cur.rows.length sql2),
            [.exec sql2])
         | none => (.ok (.message sql2), [.exec sql2]))

/-- `QueryExecutor.explain_query` (lines 439-456): prefixes the input with
`EXPLAIN ` and returns `row[0]` of each plan row (modelled as `head?`);
no safety gate, no limit injection. -/
def explain_query (driver : Driver) (sql : Str) :
    Except PyErr (List (Option Value)) × List DbEvent :=
  let explain_sql := ("EXPLAIN ").toList ++ sql
  runWithConn driver.connectResult
    (match driver.execResult explain_sql with
     | .error e => (.error e, [.exec explain_sql])
     | .ok cur => (.ok (cur.rows.map (fun row => row.head?)), [.exec explain_sql]))

/-! ## Inspector row shaping (lines 130-346) -/

/-- The table descriptor dict built per row (lines 175-184). -/
structure TableDescriptor where
  schema_name : Str
  table_name : Str
  table_type : Str
  is_temp_table : Value
  is_system_table : Value
  estimated_row_count : Value
deriving DecidableEq

/-- Lines 175-184: one descriptor per catalog row. -/
def shapeTable (r : TableRow) : TableDescriptor :=
  ⟨r.table_schema, r.table_name, r.table_type, r.is_temp_table,
   r.is_system_table, r.estimated_row_count⟩

/-- `DatabaseInspector.get_tables` (lines 130-189).  The schema filter,
table allow-list and ordering are part of the SQL sent to the external
database (lines 156-169) and are not re-modelled here. -/
def get_tables (cfg : Config) (driver : Driver) (schema_name : Option Str) :
    Except PyErr (List TableDescriptor) × List DbEvent :=
  runWithConn driver.connectResult
    (match driver.tablesResult with
     | .error e => (.error e, [])
     | .ok rows => (.ok (rows.map shapeTable), []))

/-- The column descriptor dict built per row (lines 233-246). -/
structure ColumnDescriptor where
  column_name : Str
  data_type : Str
  data_type_id : Value
  data_type_length : Value
  numeric_precision : Value
  numeric_scale : Value
  is_nullable : Value
  column_default : Value
  column_set_using : Value
  ordinal_position : Int
deriving DecidableEq

/-- Lines 233-246: one descriptor per surviving catalog row. -/
def shapeColumn (r : ColumnRow) : ColumnDescriptor :=
  ⟨r.column_name, r.data_type, r.data_type_id, r.data_type_length,
   r.numeric_precision, r.numeric_scale, r.is_nullable, r.column_default,
   r.column_set_using, r.ordinal_position⟩

/-- Lines 227-231: keep a row unless the allow-list is configured
(non-empty and not the degenerate single-empty-string list) and
`table_name + "." + column_name` is not an exact member of it. -/
def columnsKeep (cfg : Config) (table_name : Str) (r : ColumnRow) : Bool :=
  if cfg.column_white_list ≠ [] ∧ cfg.column_white_list ≠ [[]] then
    cfg.column_white_list.contains (table_name ++ '.' :: r.column_name)
  else true

/-- Lines 225-248: the post-retrieval filter-and-shape loop. -/
def shapeColumns (cfg : Config) (table_name : Str) (rows : List ColumnRow) :
    List ColumnDescriptor :=
  (rows.filter (columnsKeep cfg table_name)).map shapeColumn

/-- `DatabaseInspector.get_table_columns` (lines 191-251).  The catalog
query orders rows by `ordinal_position` in the external database
(line 221); the allow-list filter runs here, after retrieval. -/
def get_table_columns (cfg : Config) (driver : Driver) (table_name : Str)
    (schema_name : Option Str) :
    Except PyErr (List ColumnDescriptor) × List DbEvent :=
  runWithConn driver.connectResult
    (match driver.columnsResult with
     | .error e => (.error e, [])
     | .ok rows => (.ok (shapeColumns cfg table_name rows), []))

/-- The view descriptor dict built per row (lines 281-288). -/
structure ViewDescriptor where
  schema_name : Str
  view_name : Str
  is_system_view : Value
deriving DecidableEq

/-- Lines 281-288: one descriptor per catalog row. -/
def shapeView (r : ViewRow) : ViewDescriptor :=
  ⟨r.table_schema, r.table_name, r.is_system_view⟩

/-- `DatabaseInspector.get_views` (lines 253-293). -/
def get_views (cfg : Config) (driver : Driver) (schema_name : Option Str) :
    Except PyErr (List ViewDescriptor) × List DbEvent :=
  runWithConn driver.connectResult
    (match driver.viewsResult with
     | .error e => (.error e, [])
     | .ok rows => (.ok (rows.map shapeView), []))

/-- The projection descriptor dict built per row (lines 329-341). -/
structure ProjectionDescriptor where
  schema_name : Str
  projection_name : Str
  anchor_table_name : Str
  is_super_projection : Value
  is_up_to_date : Value
  has_statistics : Value
  created_epoch : Value
  verified_fault_tolerance : Value
deriving DecidableEq

/-- Lines 329-341: one descriptor per catalog row. -/
def shapeProjection (r : ProjectionRow) : ProjectionDescriptor :=
  ⟨r.projection_schema, r.projection_name, r.anchor_table_name,
   r.is_super_projection, r.is_up_to_date, r.has_statistics,
   r.created_epoch, r.verified_fault_tolerance⟩

/-- `DatabaseInspector.get_projections` (lines 295-346). -/
def get_projections (cfg : Config) (driver : Driver) (schema_name : Option Str) :
    Except PyErr (List ProjectionDescriptor) × List DbEvent :=
  runWithConn driver.connectResult
    (match driver.projectionsResult with
     | .error e => (.error e, [])
     | .ok rows => (.ok (rows.map shapeProjection), []))

/-! ## Connection-string parsing (`_parse_connection_string`, lines 74-111)

The URI branch delegates to `urllib.parse.urlparse`; the fragment of
CPython's `urlparse` that the branch touches (`hostname`, `port`,
`username`, `password`, `path`) is modelled below.  IPv6 bracket hosts
and percent-encoded zone identifiers are not modelled. -/

/-- The scheme test of line 80: the URI branch is taken only for strings
starting with the literal text `vertica` followed by the colon and two
slashes. -/
def verticaScheme : Str := ("vertica://").toList

/-- CPython `urlsplit`: the network-location component is everything after
the two slashes up to the first `/`, `?` or `#`. -/
def uriNetloc (s : Str) : Str :=
  (s.drop verticaScheme.length).takeWhile
    (fun c => !(c = '/' || c = '?' || c = '#'))

/-- CPython `urlsplit`: the path component runs from the end of the netloc
up to the first `?` or `#`. -/
def uriPath (s : Str) : Str :=
  ((s.drop verticaScheme.length).dropWhile
    (fun c => !(c = '/' || c = '?' || c = '#'))).takeWhile
    (fun c => !(c = '?' || c = '#'))

/-- CPython `SplitResult._userinfo`: everything before the last `@` of the
netloc is the user info; the part before its first `:` is the username,
the part after it the password (`none` when the separator is missing). -/
def uriUserinfo (netloc : Str) : Option Str × Option Str :=
  match pyRPartition '@' netloc with
  | none => (none, none)
  | some (userinfo, _) =>
    match pyPartition ':' userinfo with
    | none => (some userinfo, none)
    | some (u, pw) => (some u, some pw)

/-- CPython `SplitResult._hostinfo` (bracket-free hosts): the host part of
the netloc is everything after the last `@`, up to the first `:`; the
port string follows that `:` and is `None` when absent or empty. -/
def uriHostPort (netloc : Str) : Str × Option Str :=
  let hostinfo := match pyRPartition '@' netloc with
    | none => netloc
    | some (_, h) => h
  match pyPartition ':' hostinfo with
  | none => (hostinfo, none)
  | some (h, p) => (h, if p = [] then none else some p)

/-- CPython `SplitResult.hostname`: the host part, lower-cased; `None`
when empty. -/
def uriHostname (netloc : Str) : Option Str :=
  let h := (uriHostPort netloc).1
  if h = [] then none else some (pyLower h)

/-- Message of CPython's non-integer-port ValueError. -/
def portCastMsg (p : Str) : Str :=
  ("Port could not be cast to integer value as ").toList ++ p

/-- Message of CPython's out-of-range-port ValueError. -/
def portRangeMsg : Str := ("Port out of range 0-65535").toList

/-- CPython `SplitResult.port`: the port string converted to an integer;
raises ValueError when it is not all digits or exceeds 65535. -/
def uriPort (netloc : Str) : Except PyErr (Option Int) :=
  match (uriHostPort netloc).2 with
  | none => .ok none
  | some p =>
    if p.all isAsciiDigit then
      if digitsToNat p ≤ 65535 then .ok (some (digitsToNat p : Int))
      else .error (.valueError portRangeMsg)
    else .error (.valueError (portCastMsg p))

/-- The parameter dict returned by `_parse_connection_string`
(lines 82-88 / 103-109).  `urlparse` components that can be `None` are
`Option`s; the simple branch always fills every field. -/
structure ConnInfo where
  host : Option Str
  port : Int
  user : Option Str
  password : Option Str
  database : Option Str
deriving DecidableEq

/-- Lines 80-88: the URI branch.  `parsed.port or 5433` applies the
default both when the port is absent and when it is the falsy integer 0;
`parsed.path.lstrip("/") if parsed.path else None` strips every leading
slash and maps the empty path to `None`. -/
def parseUriForm (s : Str) : Except PyErr ConnInfo :=
  let netloc := uriNetloc s
  let path := uriPath s
  match uriPort netloc with
  | .error e => .error e
  | .ok port? =>
    .ok { host := uriHostname netloc
          port := match port? with
                  | none => 5433
                  | some p => if p = 0 then 5433 else p
          user := (uriUserinfo netloc).1
          password := (uriUserinfo netloc).2
          database :=
            if path = [] then none
            else some (path.dropWhile (fun c => c = '/')) }

/-- `VerticaConnection._parse_connection_string` (lines 74-111).  The
argument is `Option`al so that an absent configuration value (line 45
leaves `DB_CONNECTION_STRING` as `None`) is representable; both `None`
and the empty string fail the `if not connection_string` check of
line 76. -/
def parse_connection_string (env : Env) (connection_string : Option Str) :
    Except PyErr ConnInfo :=
  match connection_string with
  | none => .error (.valueError connStringRequiredMsg)
  | some s =>
    if s = [] then .error (.valueError connStringRequiredMsg)
    else if pyStartswith s verticaScheme then parseUriForm s
    else
      match pySplit '/' s with
      | host_port :: database :: _ =>
        (match pyPartition ':' host_port with
         | some (host, portStr) =>
           match pyInt portStr with
           | .error e => .error e
           | .ok port =>
             .ok { host := some host, port := port,
                   user := some (env.vertica_user.getD (("dbadmin").toList)),
                   password := some (env.vertica_password.getD []),
                   database := some database }
         | none =>
           .ok { host := some host_port, port := 5433,
                 user := some (env.vertica_user.getD (("dbadmin").toList)),
                 password := some (env.vertica_password.getD []),
                 database := some database })
      | _ => .error (.valueError invalidFormatMsg)

/-! ## CSV rendering (`export_query_results`, lines 840-867) and the
inverse splitter induced by its escaping rules -/

/-- Line 855: `str_value.replace(chr(34), chr(34) + chr(34))` — double
every embedded double quote. -/
def csvEscape : Str → Str
  | [] => []
  | c :: rest =>
    if c = '"' then '"' :: '"' :: csvEscape rest else c :: csvEscape rest

/-- Lines 847-857: one CSV field — the empty string for null, otherwise
`str(value)`, wrapped in double quotes with embedded quotes doubled when
it contains a comma or a quote. -/
def csvField (v : Value) : Str :=
  match v with
  | .null => []
  | v =>
    let str_value := pyStr v
    if pyContains str_value ([',']) || pyContains str_value (['"']) then
      '"' :: (csvEscape str_value ++ ['"'])
    else str_value

/-- Lines 843/858: `",".join(pieces)`. -/
def pyJoinComma : List Str → Str
  | [] => []
  | [f] => f
  | f :: rest => f ++ ',' :: pyJoinComma rest

/-- One rendered CSV data row (lines 845-858). -/
def renderCsvRow (row : List Value) : Str := pyJoinComma (row.map csvField)

/-- Inverse of the quoting rule: the body of a double-quoted field — a
doubled quote is one literal quote, a single quote closes the field. -/
def parseQuoted : Str → Str × Str
  | [] => ([], [])
  | '"' :: '"' :: rest =>
    let p := parseQuoted rest
    ('"' :: p.1, p.2)
  | '"' :: rest => ([], rest)
  | c :: rest =>
    let p := parseQuoted rest
    (c :: p.1, p.2)

/-- One field under the escaping rules of the renderer: a field starting
with a double quote is read by `parseQuoted`; any other field extends to
the next comma. -/
def parseField : Str → Str × Str
  | '"' :: rest => parseQuoted rest
  | s => (s.takeWhile (fun c => !(c = ',')), s.dropWhile (fun c => !(c = ',')))

/-- Termination bound for `splitCsv`: `parseQuoted` never lengthens the rest. -/
def parseQuotedRestLen (s : Str) : (parseQuoted s).2.length ≤ s.length := by
  induction s using parseQuoted.induct with
  | case1 => simp [parseQuoted]
  | case2 rest ih => simp [parseQuoted]; omega
  | case3 rest => simp [parseQuoted]
  | case4 c rest h ih => simp [parseQuoted, h]; omega

/-- Termination bound for `splitCsv`: `parseField` never lengthens the rest. -/
def parseFieldRestLen (s : Str) : (parseField s).2.length ≤ s.length := by
  rw [parseField.eq_def]
  split
  · next rest =>
    have := parseQuotedRestLen rest
    simp only [List.length_cons]
    omega
  · have h : (s.dropWhile (fun c => !(c = ','))) <:+ s :=
      List.dropWhile_suffix (fun c => !(c = ','))
    simpa using h.length_le

/-- Splitting one rendered row back into fields under the renderer's
escaping rules. -/
def splitCsv (s : Str) : List Str :=
  match h : (parseField s).2 with
  | ',' :: rest => (parseField s).1 :: splitCsv rest
  | _ => [(parseField s).1]
termination_by s.length
decreasing_by
  have hle := parseFieldRestLen s
  rw [h] at hle
  simp at hle
  omega

/-- The field contents the CSV renderer is expected to round-trip: the
empty string for null, `str(value)` otherwise. -/
def fieldContent (v : Value) : Str :=
  match v with
  | .null => []
  | v => pyStr v

/-! ## Shared concrete instances used by the claim witnesses -/

/-- An environment with neither `VERTICA_USER` nor `VERTICA_PASSWORD` set. -/
def env0 : Env := ⟨none, none⟩

/-- The default configuration (`QUERY_LIMIT_SIZE` 100, no allow-lists). -/
def cfg0 : Config := ⟨100, [], []⟩

/-- A configuration whose column allow-list is exactly `t.a`. -/
def cfgWL : Config := ⟨100, [], [("t.a").toList]⟩

/-- A sample driver failure. -/
def derr0 : DriverErr := .mk (("connection lost").toList)

/-- A sample timestamp. -/
def dt0 : PyDatetime := ⟨2024, 1, 2, 3, 4, 5, 0⟩

/-- A driver whose every operation succeeds with a one-column result
containing a timestamp and a null. -/
def okDriver : Driver :=
  ⟨.ok (), fun _ => .ok ⟨some [("ts").toList], [[.dt dt0, .null]]⟩,
   .ok [], .ok [], .ok [], .ok []⟩

/-- A driver that connects but fails every statement. -/
def failingDriver : Driver :=
  ⟨.ok (), fun _ => .error derr0, .error derr0, .error derr0, .error derr0,
   .error derr0⟩

/-- Sample catalog rows for the column-filter witness. -/
def colRowA : ColumnRow :=
  ⟨("a").toList, ("INT").toList, .null, .null, .null, .null, .null, .null,
   .null, 1⟩

/-- Second sample catalog row (filtered out by `cfgWL`). -/
def colRowB : ColumnRow :=
  ⟨("b").toList, ("INT").toList, .null, .null, .null, .null, .null, .null,
   .null, 2⟩

/-- A driver that returns the two sample column rows. -/
def colDriver : Driver :=
  ⟨.ok (), fun _ => .ok ⟨none, []⟩, .ok [], .ok [colRowA, colRowB], .ok [],
   .ok []⟩

/-- A sample CSV row: a null and a comma-containing string. -/
def row0 : List Value := [.null, .s (("a,b").toList)]

/-- The property packaging the connection-release discipline of one
operation: every acquired connection is closed, the number of closes
matches the number of acquisitions, and when a connection was acquired
the close is the last event before the operation returns. -/
def releasesConnection {α : Type} (r : Except PyErr α × List DbEvent) : Prop :=
  r.2.count DbEvent.close = r.2.count DbEvent.connect ∧
  (DbEvent.connect ∈ r.2 → r.2.getLast? = some DbEvent.close)

/-- The optional `:port` segment of a connection string. -/
def portSegment (port : Option Str) : Str :=
  match port with
  | none => []
  | some ps => ':' :: ps

/-- The optional `/database` segment of a URI-form connection string. -/
def dbSegment (db : Option Str) : Str :=
  match db with
  | none => []
  | some d => '/' :: d

/-- Builder for the user-info part of a URI-form connection string:
nothing, `user@`, or `user:password@`. -/
def buildUserinfo : Option (Str × Option Str) → Str
  | none => []
  | some (u, none) => u ++ ['@']
  | some (u, some pw) => u ++ ':' :: (pw ++ ['@'])

/-- Builder for a URI-form connection string
`vertica://[user[:password]@]host[:port][/database]`. -/
def buildUri (ui : Option (Str × Option Str)) (host : Str) (port : Option Str)
    (db : Option Str) : Str :=
  verticaScheme ++ buildUserinfo ui ++ host ++ portSegment port ++ dbSegment db

/-- Builder for a simple-form connection string `host[:port]/database`. -/
def buildSimple (host : Str) (port : Option Str) (db : Str) : Str :=
  host ++ portSegment port ++ '/' :: db

/-- The host/port split `uriHostPort` performs after discarding the user
info (the `partition` on the first `:`; an empty port string becomes
`None`). -/
def splitPort (hostinfo : Str) : Str × Option Str :=
  match pyPartition ':' hostinfo with
  | none => (hostinfo, none)
  | some (h, p) => (h, if p = [] then none else some p)

/-! ## Helper lemmas about the Python string primitives -/

theorem takeWhile_append_all {p : Char → Bool} :
    ∀ (l r : Str), (∀ c ∈ l, p c = true) →
      (∀ c, r.head? = some c → p c = false) →
      (l ++ r).takeWhile p = l
  | [], r, _, hr => by
    cases r with
    | nil => simp
    | cons c rest => simp [List.takeWhile_cons, hr c rfl]
  | a :: l, r, hl, hr => by
    have ha := hl a (by simp)
    simp only [List.cons_append, List.takeWhile_cons, ha, if_true]
    rw [takeWhile_append_all l r (fun c hc => hl c (by simp [hc])) hr]

theorem dropWhile_append_all {p : Char → Bool} :
    ∀ (l r : Str), (∀ c ∈ l, p c = true) →
      (∀ c, r.head? = some c → p c = false) →
      (l ++ r).dropWhile p = r
  | [], r, _, hr => by
    cases r with
    | nil => simp
    | cons c rest => simp [List.dropWhile_cons, hr c rfl]
  | a :: l, r, hl, hr => by
    have ha := hl a (by simp)
    simp only [List.cons_append, List.dropWhile_cons, ha, if_true]
    exact dropWhile_append_all l r (fun c hc => hl c (by simp [hc])) hr

theorem pyPartition_not_mem {sep : Char} :
    ∀ {s : Str}, sep ∉ s → pyPartition sep s = none
  | [], _ => rfl
  | c :: rest, h => by
    have hc : ¬(c = sep) := fun hc => h (by simp [hc])
    have hr : sep ∉ rest := fun hr => h (by simp [hr])
    simp [pyPartition, hc, pyPartition_not_mem hr]

theorem pyPartition_append {sep : Char} :
    ∀ (l r : Str), sep ∉ l → pyPartition sep (l ++ sep :: r) = some (l, r)
  | [], r, _ => by simp [pyPartition]
  | c :: l, r, h => by
    have hc : ¬(c = sep) := fun hc => h (by simp [hc])
    have hl : sep ∉ l := fun hl => h (by simp [hl])
    simp [pyPartition, hc, pyPartition_append l r hl]

theorem pyRPartition_not_mem {sep : Char} {s : Str} (h : sep ∉ s) :
    pyRPartition sep s = none := by
  have : sep ∉ s.reverse := by simpa using h
  simp [pyRPartition, pyPartition_not_mem this]

theorem pyRPartition_append {sep : Char} (l r : Str) (h : sep ∉ r) :
    pyRPartition sep (l ++ sep :: r) = some (l, r) := by
  have hrev : (l ++ sep :: r).reverse = r.reverse ++ sep :: l.reverse := by
    simp [List.reverse_append]
  have hmem : sep ∉ r.reverse := by simpa using h
  simp [pyRPartition, hrev, pyPartition_append _ _ hmem]

theorem pySplitAux_not_mem {sep : Char} :
    ∀ (s acc : Str), sep ∉ s → pySplitAux sep s acc = [acc.reverse ++ s]
  | [], acc, _ => by simp [pySplitAux]
  | c :: rest, acc, h => by
    have hc : ¬(c = sep) := fun hc => h (by simp [hc])
    have hr : sep ∉ rest := fun hr => h (by simp [hr])
    simp [pySplitAux, hc, pySplitAux_not_mem rest (c :: acc) hr]

theorem pySplitAux_append {sep : Char} :
    ∀ (l r acc : Str), sep ∉ l →
      pySplitAux sep (l ++ sep :: r) acc = (acc.reverse ++ l) :: pySplitAux sep r []
  | [], r, acc, _ => by simp [pySplitAux]
  | c :: l, r, acc, h => by
    have hc : ¬(c = sep) := fun hc => h (by simp [hc])
    have hl : sep ∉ l := fun hl => h (by simp [hl])
    simp [pySplitAux, hc, pySplitAux_append l r (c :: acc) hl]

theorem pySplit_not_mem {sep : Char} {s : Str} (h : sep ∉ s) :
    pySplit sep s = [s] := by
  simpa using pySplitAux_not_mem s [] h

theorem pySplit_append {sep : Char} (l r : Str) (h : sep ∉ l) :
    pySplit sep (l ++ sep :: r) = l :: pySplit sep r := by
  simpa [pySplit] using pySplitAux_append l r [] h

theorem pyStrip_of_no_ws {s : Str} (h : ∀ c ∈ s, Char.isWhitespace c = false) :
    pyStrip s = s := by
  have h1 : s.dropWhile Char.isWhitespace = s := by
    cases s with
    | nil => rfl
    | cons c rest => simp [List.dropWhile_cons, h c (by simp)]
  rw [pyStrip, h1]
  have h2 : s.reverse.dropWhile Char.isWhitespace = s.reverse := by
    cases hrev : s.reverse with
    | nil => rfl
    | cons c rest =>
      have hc : c ∈ s := by
        have : c ∈ s.reverse := by simp [hrev]
        simpa using this
      simp [List.dropWhile_cons, h c hc]
  rw [h2, List.reverse_reverse]

theorem digit_ne {c : Char} (d : Char) (h : isAsciiDigit c = true)
    (hd : isAsciiDigit d = false) : c ≠ d := by
  intro he
  rw [he] at h
  rw [h] at hd
  cases hd

theorem digit_not_ws {c : Char} (h : isAsciiDigit c = true) :
    Char.isWhitespace c = false := by
  by_contra hw
  rw [Bool.not_eq_false] at hw
  simp only [Char.isWhitespace, Bool.or_eq_true, decide_eq_true_eq] at hw
  rcases hw with ((h1 | h1) | h1) | h1 <;> (subst h1; exact absurd h (by decide))

theorem pyInt_digits {s : Str} (hne : s ≠ [])
    (hd : ∀ c ∈ s, isAsciiDigit c = true) :
    pyInt s = .ok (digitsToNat s : Int) := by
  have hstrip : pyStrip s = s :=
    pyStrip_of_no_ws (fun c hc => digit_not_ws (hd c hc))
  have hall : s.all isAsciiDigit = true := by
    simp only [List.all_eq_true]
    exact hd
  have hemp : s.isEmpty = false := by
    cases s with
    | nil => exact absurd rfl hne
    | cons c rest => rfl
  unfold pyInt
  rw [hstrip]
  split
  · exfalso
    exact absurd (hd '+' (by simp)) (by decide)
  · exfalso
    exact absurd (hd '-' (by simp)) (by decide)
  · simp [hall, hemp]

/-! ## Lemmas about the executor pipeline -/

theorem safetyGate_cases (sql : Str) :
    safetyGate sql = .ok () ∨
      safetyGate sql = .error (.valueError policyViolationMsg) := by
  unfold safetyGate
  simp only []
  split
  · split
    · right; rfl
    · left; rfl
  · left; rfl

theorem safetyGate_error_iff (sql : Str) :
    safetyGate sql = .error (.valueError policyViolationMsg) ↔
      (allowedStarts.any (fun k => pyStartswith (sqlNormalize sql) k) = false ∧
       dangerousKeywords.any (fun k => pyContains (sqlNormalize sql) k) = true) := by
  unfold safetyGate
  cases h1 : allowedStarts.any (fun k => pyStartswith (sqlNormalize sql) k) <;>
    cases h2 : dangerousKeywords.any (fun k => pyContains (sqlNormalize sql) k) <;>
      simp [h1, h2]

theorem runWithConn_no_valueError {α : Type} (c : Except DriverErr Unit)
    (b : Except DriverErr α × List DbEvent) (m : Str) :
    (runWithConn c b).1 ≠ .error (.valueError m) := by
  unfold runWithConn
  rcases c with e | u
  · simp
  · rcases b with ⟨res, evs⟩
    rcases res with e | a <;> simp

theorem shouldInjectLimit_iff (sql : Str) :
    shouldInjectLimit sql = true ↔
      (pyContains (sqlNormalize sql) (("SELECT").toList) = true ∧
       pyContains (sqlNormalize sql) (("LIMIT").toList) = false ∧
       pyStartswith (sqlNormalize sql) (("EXPLAIN").toList) = false) := by
  unfold shouldInjectLimit
  simp only [Bool.and_eq_true, Bool.not_eq_true', and_assoc]

theorem exec_event_eq (cfg : Config) (driver : Driver) (sql t : Str)
    (h : DbEvent.exec t ∈ (execute_query cfg driver sql).2) :
    t = executedSql cfg sql := by
  rcases safetyGate_cases sql with hg | hg <;> simp only [execute_query, hg] at h
  · rcases hc : driver.connectResult with e | u <;>
      simp only [runWithConn, hc] at h
    · simp at h
    · rcases hr : driver.execResult (executedSql cfg sql) with e | cur <;>
        simp only [hr] at h
      · simp at h
        exact h
      · rcases hd : cur.description with _ | cols <;> simp only [hd] at h <;>
          (simp at h; exact h)
  · simp at h

/-- C1: for every input string, `execute_query` fails with the
`PolicyViolation` ValueError carrying the message naming SELECT, DESCRIBE
and EXPLAIN if and only if the uppercased, whitespace-stripped form of the
SQL does not start with any of SELECT, WITH, DESCRIBE, DESC, EXPLAIN and
contains at least one of DROP, DELETE, TRUNCATE, ALTER, CREATE, INSERT,
UPDATE as a substring. -/
theorem c1_policy_violation_iff (cfg : Config) (driver : Driver) (sql : Str) :
    (execute_query cfg driver sql).1 = .error (.valueError policyViolationMsg) ↔
      (allowedStarts.any (fun k => pyStartswith (sqlNormalize sql) k) = false ∧
       dangerousKeywords.any (fun k => pyContains (sqlNormalize sql) k) = true) := by
  rw [← safetyGate_error_iff]
  rcases safetyGate_cases sql with h | h
  · simp only [execute_query, h]
    constructor
    · intro hx
      exact absurd hx (runWithConn_no_valueError _ _ _)
    · intro hx
      exact Except.noConfusion hx
  · simp only [execute_query, h]

/-- C10: any statement whose normalized form contains none of the
dangerous keywords passes the safety gate — even when it does not start
with any of the allowed keywords — and (when the connection succeeds) is
forwarded to the database. -/
theorem c10_no_dangerous_passes_gate (cfg : Config) (driver : Driver) (sql : Str)
    (h : dangerousKeywords.any (fun k => pyContains (sqlNormalize sql) k) = false) :
    safetyGate sql = .ok () ∧
    (driver.connectResult = .ok () →
      DbEvent.exec (executedSql cfg sql) ∈ (execute_query cfg driver sql).2) := by
  have hgate : safetyGate sql = .ok () := by
    unfold safetyGate
    simp only []
    split
    · simp [h]
    · rfl
  refine ⟨hgate, fun hconn => ?_⟩
  simp only [execute_query, hgate]
  rcases hres : driver.execResult (executedSql cfg sql) with e | cur
  · simp [runWithConn, hconn, hres]
  · rcases hdesc : cur.description with _ | cols <;>
      simp [runWithConn, hconn, hres, hdesc]

/-- Witness for C10 at `COPY t FROM STDIN` (starts with none of the allowed
keywords, contains no dangerous keyword): the gate passes and the
statement reaches the database. -/
theorem c10_no_dangerous_passes_gate_witness :
    safetyGate (("COPY t FROM STDIN").toList) = .ok () ∧
    DbEvent.exec (executedSql cfg0 (("COPY t FROM STDIN").toList)) ∈
      (execute_query cfg0 okDriver (("COPY t FROM STDIN").toList)).2 := by
  have h := c10_no_dangerous_passes_gate cfg0 okDriver
    (("COPY t FROM STDIN").toList) (by decide)
  exact ⟨h.1, h.2 rfl⟩

/-- C2: any SQL text forwarded to the database by `execute_query` is the
original text with the literal ` LIMIT <size>` clause appended exactly
when the normalized input contains SELECT, does not contain LIMIT, and
does not start with EXPLAIN; otherwise it is the original text
unchanged. -/
theorem c2_limit_injection (cfg : Config) (driver : Driver) (sql t : Str)
    (h : DbEvent.exec t ∈ (execute_query cfg driver sql).2) :
    (t = sql ++ limitClause cfg ↔
      (pyContains (sqlNormalize sql) (("SELECT").toList) = true ∧
       pyContains (sqlNormalize sql) (("LIMIT").toList) = false ∧
       pyStartswith (sqlNormalize sql) (("EXPLAIN").toList) = false)) ∧
    (¬(pyContains (sqlNormalize sql) (("SELECT").toList) = true ∧
       pyContains (sqlNormalize sql) (("LIMIT").toList) = false ∧
       pyStartswith (sqlNormalize sql) (("EXPLAIN").toList) = false) → t = sql) := by
  have ht := exec_event_eq cfg driver sql t h
  subst ht
  have hlen : 0 < (limitClause cfg).length := by
    rw [limitClause, List.length_append]
    have h7 : ((" LIMIT ").toList).length = 7 := rfl
    omega
  have hne : sql ≠ sql ++ limitClause cfg := by
    intro he
    have hl := congrArg List.length he
    rw [List.length_append] at hl
    omega
  rw [← shouldInjectLimit_iff]
  cases hinj : shouldInjectLimit sql
  · simp [executedSql, hinj, hne]
  · simp [executedSql, hinj]

/-- Witness for C2 at `SELECT * FROM t` with limit size 100: the executed
text is the original with ` LIMIT 100` appended. -/
theorem c2_limit_injection_witness :
    ((("SELECT * FROM t").toList ++ limitClause cfg0 =
        ("SELECT * FROM t").toList ++ limitClause cfg0) ↔
      (pyContains (sqlNormalize (("SELECT * FROM t").toList)) (("SELECT").toList) = true ∧
       pyContains (sqlNormalize (("SELECT * FROM t").toList)) (("LIMIT").toList) = false ∧
       pyStartswith (sqlNormalize (("SELECT * FROM t").toList)) (("EXPLAIN").toList) = false)) := by
  have h := c2_limit_injection cfg0 okDriver (("SELECT * FROM t").toList)
    ((("SELECT * FROM t").toList ++ limitClause cfg0)) (by decide)
  exact h.1

/-! ## The connection-release discipline (C9) -/

theorem runWithConn_releases {α : Type} (c : Except DriverErr Unit)
    (b : Except DriverErr α × List DbEvent)
    (h1 : DbEvent.connect ∉ b.2) (h2 : DbEvent.close ∉ b.2) :
    releasesConnection (runWithConn c b) := by
  rcases c with e | u
  · simp [releasesConnection, runWithConn]
  · rcases b with ⟨res, evs⟩
    simp only at h1 h2
    have hc1 : evs.count DbEvent.close = 0 := List.count_eq_zero.mpr h2
    have hc2 : evs.count DbEvent.connect = 0 := List.count_eq_zero.mpr h1
    have hrel : ∀ r : Except PyErr α,
        releasesConnection (r, DbEvent.connect :: (evs ++ [DbEvent.close])) := by
      intro r
      constructor
      · show (DbEvent.connect :: (evs ++ [DbEvent.close])).count DbEvent.close =
          (DbEvent.connect :: (evs ++ [DbEvent.close])).count DbEvent.connect
        simp [List.count_cons, List.count_append, hc1, hc2]
      · intro _
        show (DbEvent.connect :: (evs ++ [DbEvent.close])).getLast? =
          some DbEvent.close
        rw [show DbEvent.connect :: (evs ++ [DbEvent.close]) =
          (DbEvent.connect :: evs) ++ [DbEvent.close] from rfl,
          List.getLast?_concat]
    rcases res with e | a
    · exact hrel _
    · exact hrel _

/-- C9: every Inspector and Executor operation closes the connection it
acquired on every exit path (the close count matches the connect count and
the close is the final event), and every driver failure inside the body
propagates unmodified to the caller. -/
theorem c9_connection_release (cfg : Config) (driver : Driver) (tbl : Str)
    (schema : Option Str) (sql : Str) :
    releasesConnection (get_tables cfg driver schema) ∧
    releasesConnection (get_table_columns cfg driver tbl schema) ∧
    releasesConnection (get_views cfg driver schema) ∧
    releasesConnection (get_projections cfg driver schema) ∧
    releasesConnection (execute_query cfg driver sql) ∧
    releasesConnection (explain_query driver sql) ∧
    (∀ e, driver.connectResult = .ok () → driver.tablesResult = .error e →
      (get_tables cfg driver schema).1 = .error (.driverError e)) ∧
    (∀ e, driver.connectResult = .ok () → driver.columnsResult = .error e →
      (get_table_columns cfg driver tbl schema).1 = .error (.driverError e)) ∧
    (∀ e, driver.connectResult = .ok () → driver.viewsResult = .error e →
      (get_views cfg driver schema).1 = .error (.driverError e)) ∧
    (∀ e, driver.connectResult = .ok () → driver.projectionsResult = .error e →
      (get_projections cfg driver schema).1 = .error (.driverError e)) ∧
    (∀ e, safetyGate sql = .ok () → driver.connectResult = .ok () →
      driver.execResult (executedSql cfg sql) = .error e →
      (execute_query cfg driver sql).1 = .error (.driverError e)) ∧
    (∀ e, driver.connectResult = .ok () →
      driver.execResult ((("EXPLAIN ").toList) ++ sql) = .error e →
      (explain_query driver sql).1 = .error (.driverError e)) := by
  refine ⟨?_, ?_, ?_, ?_, ?_, ?_, ?_, ?_, ?_, ?_, ?_, ?_⟩
  · unfold get_tables
    apply runWithConn_releases <;>
      (rcases driver.tablesResult with e | rows <;> simp)
  · unfold get_table_columns
    apply runWithConn_releases <;>
      (rcases driver.columnsResult with e | rows <;> simp)
  · unfold get_views
    apply runWithConn_releases <;>
      (rcases driver.viewsResult with e | rows <;> simp)
  · unfold get_projections
    apply runWithConn_releases <;>
      (rcases driver.projectionsResult with e | rows <;> simp)
  · rcases safetyGate_cases sql with hg | hg <;> simp only [execute_query, hg]
    · apply runWithConn_releases <;>
        (rcases driver.execResult (executedSql cfg sql) with e | cur <;>
          [simp; rcases hd : cur.description with _ | cols <;> simp [hd]])
    · exact ⟨rfl, by simp⟩
  · unfold explain_query
    apply runWithConn_releases <;>
      (rcases driver.execResult ((("EXPLAIN ").toList) ++ sql) with e | cur <;>
        simp)
  · intro e hconn htab
    simp [get_tables, runWithConn, hconn, htab]
  · intro e hconn hcol
    simp [get_table_columns, runWithConn, hconn, hcol]
  · intro e hconn hv
    simp [get_views, runWithConn, hconn, hv]
  · intro e hconn hp
    simp [get_projections, runWithConn, hconn, hp]
  · intro e hgate hconn hres
    simp only [execute_query, hgate]
    simp [runWithConn, hconn, hres]
  · intro e hconn hres
    simp at hres
    simp [explain_query, runWithConn, hconn, hres]

/-- Witness for C9: a concrete driver failure in `get_tables` propagates
unmodified, and the trace balances its connect with a close. -/
theorem c9_connection_release_witness :
    (get_tables cfg0 failingDriver none).1 = .error (.driverError derr0) ∧
    releasesConnection (get_tables cfg0 failingDriver none) := by
  have h := c9_connection_release cfg0 failingDriver [] none []
  exact ⟨h.2.2.2.2.2.2.1 derr0 rfl rfl, h.1⟩

/-! ## The column allow-list filter (C7) -/

/-- C7: with a configured (non-degenerate) column allow-list, the columns
operation returns exactly the retrieved descriptors whose
`table.column` key is a member of the list — filtered after retrieval, in
their original order — and the filtered sequence stays sorted by
`ordinal_position` whenever the retrieved rows were. -/
theorem c7_column_allowlist (cfg : Config) (driver : Driver) (tbl : Str)
    (schema : Option Str) (rows : List ColumnRow)
    (hwl1 : cfg.column_white_list ≠ []) (hwl2 : cfg.column_white_list ≠ [[]])
    (hconn : driver.connectResult = .ok ())
    (hrows : driver.columnsResult = .ok rows) :
    (get_table_columns cfg driver tbl schema).1 =
      .ok ((rows.filter (fun r =>
          decide ((tbl ++ '.' :: r.column_name) ∈ cfg.column_white_list))).map
        shapeColumn) ∧
    (List.Pairwise (fun a b => a.ordinal_position ≤ b.ordinal_position) rows →
      List.Pairwise (fun a b => a.ordinal_position ≤ b.ordinal_position)
        ((rows.filter (fun r =>
            decide ((tbl ++ '.' :: r.column_name) ∈ cfg.column_white_list))).map
          shapeColumn)) := by
  have hfil : rows.filter (columnsKeep cfg tbl) =
      rows.filter (fun r =>
        decide ((tbl ++ '.' :: r.column_name) ∈ cfg.column_white_list)) := by
    apply List.filter_congr
    intro r _
    unfold columnsKeep
    rw [if_pos ⟨hwl1, hwl2⟩]
    by_cases hm : (tbl ++ '.' :: r.column_name) ∈ cfg.column_white_list <;>
      simp [hm, List.elem_iff]
  constructor
  · simp only [get_table_columns, runWithConn, hconn, hrows, shapeColumns, hfil]
  · intro hp
    rw [List.pairwise_map]
    exact List.Pairwise.filter _ hp

/-- Witness for C7: with allow-list `t.a` and rows `a`, `b` retrieved in
ordinal order, only the descriptor of `a` survives. -/
theorem c7_column_allowlist_witness :
    (get_table_columns cfgWL colDriver (("t").toList) none).1 =
      .ok (([colRowA, colRowB].filter (fun r =>
          decide (((("t").toList) ++ '.' :: r.column_name) ∈
            cfgWL.column_white_list))).map shapeColumn) := by
  exact (c7_column_allowlist cfgWL colDriver (("t").toList) none
    [colRowA, colRowB] (by simp [cfgWL]) (by simp [cfgWL]) rfl rfl).1

/-! ## Row serialization (C8) -/

/-- C8: when the driver reports column metadata, `execute_query` returns
one row per driver row with the same number of values (timestamps replaced
by their ISO-8601 text, all other scalars — including null — unchanged),
and the reported row count equals the number of returned rows. -/
theorem c8_serialization (cfg : Config) (driver : Driver) (sql : Str)
    (cols : List Str) (rows : List (List Value))
    (hgate : safetyGate sql = .ok ()) (hconn : driver.connectResult = .ok ())
    (hres : driver.execResult (executedSql cfg sql) = .ok ⟨some cols, rows⟩) :
    (execute_query cfg driver sql).1 =
      .ok (.table cols (serializeRows rows) rows.length (executedSql cfg sql)) ∧
    (serializeRows rows).length = rows.length ∧
    (∀ row ∈ rows, ∀ i : Nat,
      (row.map serializeValue).length = row.length ∧
      (row.map serializeValue)[i]? = (row[i]?).map serializeValue) ∧
    (∀ t : PyDatetime, serializeValue (.dt t) = .s (pyIsoformat t)) ∧
    (∀ v : Value, (∀ t, v ≠ .dt t) → serializeValue v = v) := by
  refine ⟨?_, by simp [serializeRows], ?_, fun t => rfl, ?_⟩
  · simp only [execute_query, hgate]
    simp [runWithConn, hconn, hres]
  · intro row _ i
    exact ⟨by simp, by simp⟩
  · intro v hv
    cases v with
    | dt t => exact absurd rfl (hv t)
    | null => rfl
    | s w => rfl
    | i n => rfl
    | b bb => rfl

/-- Witness for C8: a concrete query whose result row holds a timestamp
and a null. -/
theorem c8_serialization_witness :
    (execute_query cfg0 okDriver (("SELECT * FROM t").toList)).1 =
      .ok (.table [("ts").toList]
        (serializeRows [[.dt dt0, .null]]) ([[.dt dt0, .null]] : List (List Value)).length
        (executedSql cfg0 (("SELECT * FROM t").toList))) := by
  exact (c8_serialization cfg0 okDriver (("SELECT * FROM t").toList)
    [("ts").toList] [[.dt dt0, .null]] rfl rfl rfl).1

/-! ## Connection-string parsing: failure cases (C4) -/

/-- C4 (amended): an absent or empty connection string fails with the
required-string ValueError, and every non-URI input containing no `/`
fails with the `Invalid connection string format` ValueError.  (A non-URI
input containing `/` can instead fail inside `int()` — see the
counterexample — or succeed.) -/
theorem c4_invalid_format (env : Env) (s : Str) :
    (parse_connection_string env none =
      .error (.valueError connStringRequiredMsg)) ∧
    (s = [] → parse_connection_string env (some s) =
      .error (.valueError connStringRequiredMsg)) ∧
    (s ≠ [] → pyStartswith s verticaScheme = false → ('/' ∉ s) →
      parse_connection_string env (some s) =
        .error (.valueError invalidFormatMsg)) := by
  refine ⟨rfl, fun hs => ?_, fun hne hsw hmem => ?_⟩
  · subst hs; rfl
  · unfold parse_connection_string
    simp only []
    rw [if_neg hne, if_neg (by simp [hsw]), pySplit_not_mem hmem]

/-- Counterexample to C4 as stated: `host:abc/db` is a non-URI input that
does not match `host[:port]/database` (its port segment is not numeric),
yet it fails inside `int()` with the int-conversion ValueError rather
than with `Invalid connection string format`. -/
theorem c4_counterexample :
    parse_connection_string env0 (some (("host:abc/db").toList)) =
      .error (.valueError (intErrMsg (("abc").toList))) ∧
    intErrMsg (("abc").toList) ≠ invalidFormatMsg := by
  constructor
  · rfl
  · decide

/-- Witness for C4 at the spec's own example `invalid_format` (no `/`). -/
theorem c4_invalid_format_witness :
    parse_connection_string env0 (some (("invalid_format").toList)) =
      .error (.valueError invalidFormatMsg) := by
  exact (c4_invalid_format env0 (("invalid_format").toList)).2.2
    (by decide) (by decide) (by decide)

/-! ## Connection-string parsing: the simple form (C5) -/

/-- C5: for every simple-form connection string `host[:port]/database`,
parse returns the host and database taken from the string, the port
parsed from the `host:port` segment (5433 when it has no colon), and the
user and password from the environment, defaulting to `dbadmin` and the
empty string. -/
theorem c5_simple_form (env : Env) (host : Str) (port : Option Str) (db : Str)
    (hhost : ∀ c ∈ host, c ≠ '/' ∧ c ≠ ':')
    (hport : ∀ ps, port = some ps → ps ≠ [] ∧ ∀ c ∈ ps, isAsciiDigit c = true)
    (hdb : '/' ∉ db)
    (hsw : pyStartswith (buildSimple host port db) verticaScheme = false) :
    parse_connection_string env (some (buildSimple host port db)) =
      .ok { host := some host,
            port := match port with
                    | none => 5433
                    | some ps => (digitsToNat ps : Int),
            user := some (env.vertica_user.getD (("dbadmin").toList)),
            password := some (env.vertica_password.getD []),
            database := some db } := by
  have hne : buildSimple host port db ≠ [] := by
    unfold buildSimple
    intro he
    simp at he
  unfold parse_connection_string
  simp only []
  rw [if_neg hne, if_neg (by simp [hsw])]
  rcases port with _ | ps
  · have hsplit : pySplit '/' (buildSimple host none db) = [host, db] := by
      have hb : buildSimple host none db = host ++ '/' :: db := by
        unfold buildSimple
        simp [portSegment]
      rw [hb, pySplit_append host db (fun hm => (hhost _ hm).1 rfl),
        pySplit_not_mem hdb]
    rw [hsplit]
    have hpart : pyPartition ':' host = none :=
      pyPartition_not_mem (fun hm => (hhost _ hm).2 rfl)
    simp only [hpart]
  · obtain ⟨hps1, hps2⟩ := hport ps rfl
    have hsplit : pySplit '/' (buildSimple host (some ps) db) =
        [host ++ ':' :: ps, db] := by
      have hb : buildSimple host (some ps) db =
          (host ++ ':' :: ps) ++ '/' :: db := by
        unfold buildSimple
        simp [portSegment]
      have hmem : '/' ∉ host ++ ':' :: ps := by
        intro hm
        rcases List.mem_append.mp hm with hm1 | hm1
        · exact (hhost _ hm1).1 rfl
        · rcases List.mem_cons.mp hm1 with he | hm2
          · exact absurd he (by decide)
          · exact absurd (hps2 _ hm2) (by decide)
      rw [hb, pySplit_append _ db hmem, pySplit_not_mem hdb]
    rw [hsplit]
    have hpart : pyPartition ':' (host ++ ':' :: ps) = some (host, ps) :=
      pyPartition_append host ps (fun hm => (hhost _ hm).2 rfl)
    simp only [hpart, pyInt_digits hps1 hps2]

/-- Witness for C5 at `host:5433/db` with an empty environment. -/
theorem c5_simple_form_witness :
    parse_connection_string env0 (some (buildSimple (("host").toList)
      (some (("5433").toList)) (("db").toList))) =
      .ok { host := some (("host").toList),
            port := (digitsToNat (("5433").toList) : Int),
            user := some (("dbadmin").toList), password := some [],
            database := some (("db").toList) } := by
  have h := c5_simple_form env0 (("host").toList) (some (("5433").toList))
    (("db").toList) (by decide)
    (by intro ps hps; cases hps; exact ⟨by decide, by decide⟩)
    (by decide) (by decide)
  simpa [env0] using h

/-! ## The CSV round trip (C6) -/

theorem not_mem_of_pyContains_false {s : Str} {c : Char}
    (h : pyContains s [c] = false) : c ∉ s := by
  intro hm
  rcases List.append_of_mem hm with ⟨l, r, rfl⟩
  unfold pyContains at h
  simp only [decide_eq_false_iff_not] at h
  exact h ⟨l, r, by simp⟩

theorem parseQuoted_qq (rest : Str) :
    parseQuoted ('"' :: '"' :: rest) =
      ('"' :: (parseQuoted rest).1, (parseQuoted rest).2) := rfl

theorem parseQuoted_close (rest : Str)
    (hr : ∀ c, rest.head? = some c → c ≠ '"') :
    parseQuoted ('"' :: rest) = ([], rest) := by
  apply parseQuoted.eq_3
  intro rest1 he
  exact hr '"' (by rw [he]; rfl) rfl

theorem parseQuoted_other (c : Char) (rest : Str) (hc : c ≠ '"') :
    parseQuoted (c :: rest) =
      (c :: (parseQuoted rest).1, (parseQuoted rest).2) := by
  apply parseQuoted.eq_4
  · intro rest1 he _
    exact hc he
  · intro he
    exact hc he

theorem parseQuoted_escape (w : Str) : ∀ (rest : Str),
    (∀ c, rest.head? = some c → c ≠ '"') →
    parseQuoted (csvEscape w ++ '"' :: rest) = (w, rest) := by
  induction w with
  | nil =>
    intro rest hr
    simp only [csvEscape, List.nil_append]
    exact parseQuoted_close rest hr
  | cons c w ih =>
    intro rest hr
    by_cases hc : c = '"'
    · subst hc
      simp only [csvEscape, if_pos rfl, if_true, List.cons_append]
      rw [parseQuoted_qq, ih rest hr]
    · simp only [csvEscape, if_neg hc, List.cons_append]
      rw [parseQuoted_other c _ hc, ih rest hr]

theorem parseField_quote (x : Str) : parseField ('"' :: x) = parseQuoted x := rfl

theorem parseField_unquoted (s rest : Str)
    (hs : ∀ c ∈ s, c ≠ ',' ∧ c ≠ '"')
    (hr : ∀ c, rest.head? = some c → c = ',') :
    parseField (s ++ rest) = (s, rest) := by
  have htake : (s ++ rest).takeWhile (fun c => !(c = ',')) = s :=
    takeWhile_append_all s rest (fun c hc => by simp [(hs c hc).1])
      (fun c hc => by simp [hr c hc])
  have hdrop : (s ++ rest).dropWhile (fun c => !(c = ',')) = rest :=
    dropWhile_append_all s rest (fun c hc => by simp [(hs c hc).1])
      (fun c hc => by simp [hr c hc])
  have hne : ∀ (r : List Char), s ++ rest = '"' :: r → False := by
    intro r heq
    cases s with
    | nil =>
      simp only [List.nil_append] at heq
      have h2 : ('"' : Char) = ',' := hr '"' (by rw [heq]; rfl)
      exact absurd h2 (by decide)
    | cons a s =>
      rw [List.cons_append, List.cons.injEq] at heq
      exact (hs a (by simp)).2 heq.1
  rw [parseField.eq_2 _ hne, htake, hdrop]

theorem parseField_plain (w rest : Str)
    (hr : ∀ c, rest.head? = some c → c = ',') :
    parseField ((if pyContains w ([',']) || pyContains w (['"']) then
      '"' :: (csvEscape w ++ ['"']) else w) ++ rest) = (w, rest) := by
  by_cases h : (pyContains w ([',']) || pyContains w (['"'])) = true
  · rw [if_pos h]
    have hshape : ('"' :: (csvEscape w ++ ['"'])) ++ rest =
        '"' :: (csvEscape w ++ '"' :: rest) := by simp
    rw [hshape, parseField_quote,
      parseQuoted_escape w rest (fun c hc => by
        have := hr c hc
        subst this
        decide)]
  · rw [if_neg h]
    rw [Bool.or_eq_true, not_or] at h
    have h1 : ',' ∉ w :=
      not_mem_of_pyContains_false (Bool.not_eq_true _ ▸ h.1)
    have h2 : '"' ∉ w :=
      not_mem_of_pyContains_false (Bool.not_eq_true _ ▸ h.2)
    exact parseField_unquoted w rest
      (fun c hc => ⟨fun he => h1 (he ▸ hc), fun he => h2 (he ▸ hc)⟩) hr

theorem parseField_csvField (v : Value) (rest : Str)
    (hr : ∀ c, rest.head? = some c → c = ',') :
    parseField (csvField v ++ rest) = (fieldContent v, rest) := by
  cases v with
  | null => exact parseField_unquoted [] rest (by simp) hr
  | s u => exact parseField_plain (pyStr (.s u)) rest hr
  | i n => exact parseField_plain (pyStr (.i n)) rest hr
  | b bb => exact parseField_plain (pyStr (.b bb)) rest hr
  | dt t => exact parseField_plain (pyStr (.dt t)) rest hr

theorem splitCsv_eq_cons {s rest : Str}
    (h : (parseField s).2 = ',' :: rest) :
    splitCsv s = (parseField s).1 :: splitCsv rest := by
  rw [splitCsv.eq_def]
  split
  · next rest' heq =>
    have hinj := h.symm.trans heq
    rw [List.cons.injEq] at hinj
    rw [hinj.2]
  · next heq =>
    exact absurd h (heq rest)

theorem splitCsv_eq_last {s : Str} (h : (parseField s).2 = []) :
    splitCsv s = [(parseField s).1] := by
  rw [splitCsv.eq_def]
  split
  · next rest' heq =>
    exfalso
    rw [h] at heq
    exact List.noConfusion heq
  · rfl

theorem splitCsv_renderCsvRow (v : Value) (row : List Value) :
    splitCsv (renderCsvRow (v :: row)) = (v :: row).map fieldContent := by
  induction row generalizing v with
  | nil =>
    have h1 : renderCsvRow [v] = csvField v ++ [] := by
      simp [renderCsvRow, pyJoinComma]
    have h2 := parseField_csvField v [] (fun c hc => by simp at hc)
    rw [h1, splitCsv_eq_last (by rw [h2]), h2]
    rfl
  | cons w row ih =>
    have h1 : renderCsvRow (v :: w :: row) =
        csvField v ++ ',' :: renderCsvRow (w :: row) := rfl
    have h2 := parseField_csvField v (',' :: renderCsvRow (w :: row))
      (fun c hc => by
        rw [List.head?_cons, Option.some.injEq] at hc
        exact hc.symm)
    rw [h1, splitCsv_eq_cons (by rw [h2]), h2]
    simp only [List.map_cons, List.cons.injEq, true_and]
    exact ih w

/-- C6: for every non-empty result row, the CSV rendering of the row,
re-split under the renderer's own escaping rules, has the original column
count and recovers every null value as the empty string. -/
theorem c6_csv_roundtrip (row : List Value) (hne : row ≠ []) :
    (splitCsv (renderCsvRow row)).length = row.length ∧
    (∀ i : Nat, row[i]? = some Value.null →
      (splitCsv (renderCsvRow row))[i]? = some ([] : Str)) := by
  rcases row with _ | ⟨v, rest⟩
  · exact absurd rfl hne
  · rw [splitCsv_renderCsvRow v rest]
    constructor
    · simp
    · intro i hi
      rw [List.getElem?_map, hi]
      rfl

/-- Witness for C6 at a row holding a null and a comma-containing
string. -/
theorem c6_csv_roundtrip_witness :
    (splitCsv (renderCsvRow row0)).length = row0.length ∧
    (splitCsv (renderCsvRow row0))[0]? = some ([] : Str) := by
  have h := c6_csv_roundtrip row0 (by simp [row0])
  exact ⟨h.1, h.2 0 rfl⟩

/-! ## Connection-string parsing: the URI form (C3) -/

theorem isPrefixOf_append (l r : Str) : l.isPrefixOf (l ++ r) = true := by
  rw [List.isPrefixOf_iff_prefix]
  exact List.prefix_append l r

theorem netloc_path_of (nl dbp : Str)
    (hnl : ∀ c ∈ nl, (!(c = '/' || c = '?' || c = '#')) = true)
    (hdbp : ∀ c, dbp.head? = some c →
      (!(c = '/' || c = '?' || c = '#')) = false)
    (hdb2 : ∀ c ∈ dbp, (!(c = '?' || c = '#')) = true) :
    uriNetloc (verticaScheme ++ (nl ++ dbp)) = nl ∧
    uriPath (verticaScheme ++ (nl ++ dbp)) = dbp := by
  unfold uriNetloc uriPath
  rw [List.drop_left, takeWhile_append_all nl dbp hnl hdbp,
    dropWhile_append_all nl dbp hnl hdbp]
  refine ⟨rfl, ?_⟩
  have h := takeWhile_append_all dbp []
    (p := fun c => !(c = '?' || c = '#')) hdb2 (by simp)
  simpa using h

theorem uriUserinfo_none (hp : Str) (h : '@' ∉ hp) :
    uriUserinfo hp = (none, none) := by
  unfold uriUserinfo
  rw [pyRPartition_not_mem h]

theorem uriUserinfo_user (u hp : Str) (hu : ':' ∉ u) (h : '@' ∉ hp) :
    uriUserinfo (u ++ '@' :: hp) = (some u, none) := by
  unfold uriUserinfo
  rw [pyRPartition_append u hp h]
  simp only [pyPartition_not_mem hu]

theorem uriUserinfo_userpw (u pw hp : Str) (hu : ':' ∉ u) (h : '@' ∉ hp) :
    uriUserinfo ((u ++ ':' :: pw) ++ '@' :: hp) = (some u, some pw) := by
  unfold uriUserinfo
  rw [pyRPartition_append _ hp h]
  simp only [pyPartition_append u pw hu]

theorem uriHostPort_no_at (hp : Str) (h : '@' ∉ hp) :
    uriHostPort hp = splitPort hp := by
  unfold uriHostPort splitPort
  rw [pyRPartition_not_mem h]

theorem uriHostPort_at (l hp : Str) (h : '@' ∉ hp) :
    uriHostPort (l ++ '@' :: hp) = splitPort hp := by
  unfold uriHostPort splitPort
  rw [pyRPartition_append l hp h]

theorem splitPort_no_colon (host : Str) (hh : ':' ∉ host) :
    splitPort host = (host, none) := by
  unfold splitPort
  rw [pyPartition_not_mem hh]

theorem splitPort_some (host ps : Str) (hh : ':' ∉ host) (hne : ps ≠ []) :
    splitPort (host ++ ':' :: ps) = (host, some ps) := by
  unfold splitPort
  rw [pyPartition_append host ps hh]
  simp [hne]

theorem uriHostname_of {netloc host : Str} {po : Option Str}
    (h : uriHostPort netloc = (host, po)) (hne : host ≠ []) :
    uriHostname netloc = some (pyLower host) := by
  unfold uriHostname
  rw [h]
  simp [hne]

theorem uriPort_of_none {netloc host : Str}
    (h : uriHostPort netloc = (host, none)) :
    uriPort netloc = .ok none := by
  unfold uriPort
  rw [h]

theorem uriPort_of_digits {netloc host ps : Str}
    (h : uriHostPort netloc = (host, some ps))
    (hd : ∀ c ∈ ps, isAsciiDigit c = true)
    (hle : digitsToNat ps ≤ 65535) :
    uriPort netloc = .ok (some (digitsToNat ps : Int)) := by
  unfold uriPort
  rw [h]
  have hall : ps.all isAsciiDigit = true := by
    simp only [List.all_eq_true]
    exact hd
  simp [hall, hle]

/-- C3 (amended): for every vertica-scheme URI-form connection string
`vertica://[user[:password]@]host[:port][/database]`, parse returns the
user, password and database exactly as embedded (an `@` inside the
password is resolved by taking everything between the first `:` after the
scheme and the last `@` before the host as the password), returns the
host lower-cased (the hostname normalization of `urlparse`), the embedded
port when it is in 1..65535, and port 5433 when no port is given;
password is absent (not empty) when no password is given, and database is
absent when the path is empty. -/
theorem c3_uri_form (env : Env) (ui : Option (Str × Option Str)) (host : Str)
    (port : Option Str) (db : Option Str)
    (hhost1 : host ≠ [])
    (hhost2 : ∀ c ∈ host, c ≠ '/' ∧ c ≠ '?' ∧ c ≠ '#' ∧ c ≠ ':' ∧ c ≠ '@')
    (huser : ∀ u pwo, ui = some (u, pwo) →
      ∀ c ∈ u, c ≠ '/' ∧ c ≠ '?' ∧ c ≠ '#' ∧ c ≠ ':')
    (hpw : ∀ u pw, ui = some (u, some pw) →
      ∀ c ∈ pw, c ≠ '/' ∧ c ≠ '?' ∧ c ≠ '#')
    (hport : ∀ ps, port = some ps →
      ps ≠ [] ∧ (∀ c ∈ ps, isAsciiDigit c = true) ∧
      0 < digitsToNat ps ∧ digitsToNat ps ≤ 65535)
    (hdb : ∀ d, db = some d →
      (∀ c ∈ d, c ≠ '?' ∧ c ≠ '#') ∧ (∀ c, d.head? = some c → c ≠ '/')) :
    parse_connection_string env (some (buildUri ui host port db)) =
      .ok { host := some (pyLower host),
            port := match port with
                    | none => 5433
                    | some ps => (digitsToNat ps : Int),
            user := ui.map (fun p => p.1),
            password := ui.bind (fun p => p.2),
            database := db } := by
  have hnp : ∀ c : Char, c ≠ '/' → c ≠ '?' → c ≠ '#' →
      (!(c = '/' || c = '?' || c = '#')) = true := by
    intro c h1 h2 h3
    simp [h1, h2, h3]
  have hcolon : ':' ∉ host := fun hm => (hhost2 _ hm).2.2.2.1 rfl
  have hhpchars : ∀ c ∈ host ++ portSegment port,
      (!(c = '/' || c = '?' || c = '#')) = true := by
    intro c hc
    rcases List.mem_append.mp hc with hc1 | hc1
    · exact hnp c (hhost2 c hc1).1 (hhost2 c hc1).2.1 (hhost2 c hc1).2.2.1
    · rcases hpo : port with _ | ps
      · rw [hpo] at hc1
        simp [portSegment] at hc1
      · rw [hpo] at hc1
        simp only [portSegment] at hc1
        rcases List.mem_cons.mp hc1 with rfl | hc2
        · decide
        · have hdg := (hport ps hpo).2.1 c hc2
          exact hnp c (digit_ne '/' hdg (by decide))
            (digit_ne '?' hdg (by decide)) (digit_ne '#' hdg (by decide))
  have hat : '@' ∉ host ++ portSegment port := by
    intro hm
    rcases List.mem_append.mp hm with hm1 | hm1
    · exact (hhost2 _ hm1).2.2.2.2 rfl
    · rcases hpo : port with _ | ps
      · rw [hpo] at hm1
        simp [portSegment] at hm1
      · rw [hpo] at hm1
        simp only [portSegment] at hm1
        rcases List.mem_cons.mp hm1 with he | hm2
        · exact absurd he (by decide)
        · exact absurd ((hport ps hpo).2.1 _ hm2) (by decide)
  have hnlchars : ∀ c ∈ buildUserinfo ui ++ (host ++ portSegment port),
      (!(c = '/' || c = '?' || c = '#')) = true := by
    intro c hc
    rcases List.mem_append.mp hc with hc1 | hc1
    · rcases hui : ui with _ | ⟨u, pwo⟩
      · rw [hui] at hc1
        simp [buildUserinfo] at hc1
      · rw [hui] at hc1
        have hu := huser u pwo hui
        rcases pwo with _ | pw
        · simp only [buildUserinfo] at hc1
          rcases List.mem_append.mp hc1 with hc2 | hc2
          · exact hnp c (hu c hc2).1 (hu c hc2).2.1 (hu c hc2).2.2.1
          · rcases List.mem_singleton.mp hc2 with rfl
            decide
        · simp only [buildUserinfo] at hc1
          rcases List.mem_append.mp hc1 with hc2 | hc2
          · exact hnp c (hu c hc2).1 (hu c hc2).2.1 (hu c hc2).2.2.1
          · rcases List.mem_cons.mp hc2 with rfl | hc3
            · decide
            · rcases List.mem_append.mp hc3 with hc4 | hc4
              · have hp := hpw u pw hui c hc4
                exact hnp c hp.1 hp.2.1 hp.2.2
              · rcases List.mem_singleton.mp hc4 with rfl
                decide
    · exact hhpchars c hc1
  have hdbhead : ∀ c, (dbSegment db).head? = some c →
      (!(c = '/' || c = '?' || c = '#')) = false := by
    rcases hdo : db with _ | d
    · intro c hc
      simp [dbSegment] at hc
    · intro c hc
      simp only [dbSegment, List.head?_cons, Option.some.injEq] at hc
      subst hc
      decide
  have hdbchars : ∀ c ∈ dbSegment db, (!(c = '?' || c = '#')) = true := by
    rcases hdo : db with _ | d
    · intro c hc
      simp [dbSegment] at hc
    · intro c hc
      simp only [dbSegment] at hc
      rcases List.mem_cons.mp hc with rfl | hc2
      · decide
      · have h := (hdb d hdo).1 c hc2
        simp [h.1, h.2]
  -- reduce the parser to the URI branch
  have hpre : pyStartswith (buildUri ui host port db) verticaScheme = true := by
    unfold buildUri pyStartswith
    have hgrp : verticaScheme ++ buildUserinfo ui ++ host ++ portSegment port ++
        dbSegment db = verticaScheme ++ (buildUserinfo ui ++ host ++
        portSegment port ++ dbSegment db) := by
      simp [List.append_assoc]
    rw [hgrp]
    exact isPrefixOf_append _ _
  have hne0 : buildUri ui host port db ≠ [] := by
    unfold buildUri verticaScheme
    simp
  unfold parse_connection_string
  simp only []
  rw [if_neg hne0, if_pos hpre]
  -- split the string into scheme, netloc and path
  have hshape : buildUri ui host port db =
      verticaScheme ++ ((buildUserinfo ui ++ (host ++ portSegment port)) ++
        dbSegment db) := by
    unfold buildUri
    simp [List.append_assoc]
  rw [hshape]
  obtain ⟨hnl, hpath⟩ := netloc_path_of
    (buildUserinfo ui ++ (host ++ portSegment port)) (dbSegment db)
    hnlchars hdbhead hdbchars
  -- the authority components
  have hsp : splitPort (host ++ portSegment port) = (host, port) := by
    rcases port with _ | ps
    · rw [show portSegment none = [] from rfl, List.append_nil]
      exact splitPort_no_colon host hcolon
    · rw [show portSegment (some ps) = ':' :: ps from rfl]
      exact splitPort_some host ps hcolon (hport ps rfl).1
  have hhp3 : uriHostPort (buildUserinfo ui ++ (host ++ portSegment port)) =
      (host, port) := by
    rcases hui : ui with _ | ⟨u, pwo⟩
    · rw [show buildUserinfo none = [] from rfl, List.nil_append,
        uriHostPort_no_at _ hat, hsp]
    · rcases pwo with _ | pw
      · have hgrp : buildUserinfo (some (u, none)) ++
            (host ++ portSegment port) =
            u ++ '@' :: (host ++ portSegment port) := by
          simp [buildUserinfo]
        rw [hgrp, uriHostPort_at _ _ hat, hsp]
      · have hgrp : buildUserinfo (some (u, some pw)) ++
            (host ++ portSegment port) =
            (u ++ ':' :: pw) ++ '@' :: (host ++ portSegment port) := by
          simp [buildUserinfo]
        rw [hgrp, uriHostPort_at _ _ hat, hsp]
  have hui3 : uriUserinfo (buildUserinfo ui ++ (host ++ portSegment port)) =
      (ui.map (fun p => p.1), ui.bind (fun p => p.2)) := by
    rcases hui : ui with _ | ⟨u, pwo⟩
    · rw [show buildUserinfo none = [] from rfl, List.nil_append,
        uriUserinfo_none _ hat]
      rfl
    · have hu : ':' ∉ u := fun hm => (huser u pwo hui ':' hm).2.2.2 rfl
      rcases pwo with _ | pw
      · have hgrp : buildUserinfo (some (u, none)) ++
            (host ++ portSegment port) =
            u ++ '@' :: (host ++ portSegment port) := by
          simp [buildUserinfo]
        rw [hgrp, uriUserinfo_user u _ hu hat]
        rfl
      · have hgrp : buildUserinfo (some (u, some pw)) ++
            (host ++ portSegment port) =
            (u ++ ':' :: pw) ++ '@' :: (host ++ portSegment port) := by
          simp [buildUserinfo]
        rw [hgrp, uriUserinfo_userpw u pw _ hu hat]
        rfl
  -- assemble `parseUriForm`
  unfold parseUriForm
  simp only []
  rw [hnl, hpath, hui3, uriHostname_of hhp3 hhost1]
  have hdbfinal : (if dbSegment db = [] then none
      else some ((dbSegment db).dropWhile (fun c => c = '/'))) = db := by
    rcases db with _ | d
    · rfl
    · obtain ⟨-, hd2⟩ := hdb d rfl
      rw [show dbSegment (some d) = '/' :: d from rfl]
      rw [if_neg (by simp)]
      have hdrop : ('/' :: d).dropWhile (fun c => c = '/') = d := by
        rw [List.dropWhile_cons]
        simp only [decide_True, if_true]
        cases d with
        | nil => rfl
        | cons c0 ds =>
          rw [List.dropWhile_cons]
          simp [hd2 c0 rfl]
      rw [hdrop]
  rcases port with _ | ps
  · rw [uriPort_of_none hhp3]
    simp only []
    rw [hdbfinal]
  · obtain ⟨hps1, hps2, hps3, hps4⟩ := hport ps rfl
    rw [uriPort_of_digits hhp3 hps2 hps4]
    simp only []
    have hz : ¬((digitsToNat ps : Int) = 0) := by
      intro hzz
      omega
    rw [if_neg hz, hdbfinal]

/-- Counterexample to C3 as stated: in `vertica://u:pw@HOST/db` the host
is embedded as `HOST`, but parse returns it lower-cased as `host` — the
hostname is not recovered verbatim from the authority component. -/
theorem c3_counterexample :
    parse_connection_string env0 (some (("vertica://u:pw@HOST/db").toList)) =
      .ok { host := some (("host").toList), port := 5433,
            user := some (("u").toList), password := some (("pw").toList),
            database := some (("db").toList) } ∧
    (("host").toList : Str) ≠ (("HOST").toList) := by
  constructor
  · rfl
  · decide

/-- Witness for C3 at `vertica://user:p@ss@Host:5000/db` — a password
with an embedded `@` and a mixed-case host. -/
theorem c3_uri_form_witness :
    parse_connection_string env0 (some (buildUri
      (some ((("user").toList), some (("p@ss").toList)))
      (("Host").toList) (some (("5000").toList)) (some (("db").toList)))) =
      .ok { host := some (pyLower (("Host").toList)),
            port := (digitsToNat (("5000").toList) : Int),
            user := some (("user").toList),
            password := some (("p@ss").toList),
            database := some (("db").toList) } := by
  have h := c3_uri_form env0
    (some ((("user").toList), some (("p@ss").toList)))
    (("Host").toList) (some (("5000").toList)) (some (("db").toList))
    (by decide) (by decide)
    (by intro u pwo he; cases he; decide)
    (by intro u pw he; cases he; decide)
    (by intro ps he; cases he; exact ⟨by decide, by decide, by decide, by decide⟩)
    (by intro d he; cases he; exact ⟨by decide, by decide⟩)
  exact h

end VMcp
